import Mathlib

/-!
Verification of the TunSafe WireGuard protocol core (`src/wireguard_proto.h`)
against its natural-language specification.

The header file is the authority for every constant, every struct layout and
every inline member function.  Method bodies that live in the (absent)
implementation file are modelled from the specification text; each such
definition carries a doc comment starting with `Modelled from the spec:`.

Machine integers are embedded as `Nat` with explicit truncation (`% 2^w`)
where overflow can occur.
-/

namespace TunSafe

/-! ## Protocol constants (`enum ProtocolLimits`, `enum ProtocolTimeouts`) -/

/-- `UINT64_MAX` -/
def UINT64_MAX : Nat := 2 ^ 64 - 1

/-- `REJECT_AFTER_MESSAGES = UINT64_MAX - 2048` -/
def REJECT_AFTER_MESSAGES : Nat := UINT64_MAX - 2048

/-- `REKEY_AFTER_MESSAGES = UINT64_MAX - 0xffff` -/
def REKEY_AFTER_MESSAGES : Nat := UINT64_MAX - 0xffff

/-- `MAX_HANDSHAKE_ATTEMPTS = 20` -/
def MAX_HANDSHAKE_ATTEMPTS : Nat := 20

/-- `MAX_QUEUED_PACKETS_PER_PEER = 128` -/
def MAX_QUEUED_PACKETS_PER_PEER : Nat := 128

/-- `MESSAGE_MINIMUM_SIZE = 16` -/
def MESSAGE_MINIMUM_SIZE : Nat := 16

/-! ## ReplayDetector (class `ReplayDetector`, RFC 6479 style window)

Constants from the `enum` inside `class ReplayDetector`. -/

/-- `BITS_PER_ENTRY = 32` -/
def BITS_PER_ENTRY : Nat := 32

/-- `WINDOW_SIZE = 2048 - BITS_PER_ENTRY` -/
def WINDOW_SIZE : Nat := 2048 - BITS_PER_ENTRY

/-- `BITMAP_SIZE = WINDOW_SIZE / BITS_PER_ENTRY + 1` -/
def BITMAP_SIZE : Nat := WINDOW_SIZE / BITS_PER_ENTRY + 1

/-- `BITMAP_MASK = BITMAP_SIZE - 1` -/
def BITMAP_MASK : Nat := BITMAP_SIZE - 1

/-- State of `class ReplayDetector`: a 64-bit expected sequence number
`expected_seq_nr_` (highest accepted counter + 1) and `uint32
bitmap_[BITMAP_SIZE]`.  Each bitmap word is a `uint32`, kept as a `Nat`
whose used bits are the low 32. -/
structure ReplayDetector where
  expected_seq_nr : Nat
  bitmap : Fin BITMAP_SIZE → Nat

/-- Freshly constructed detector: zero expected sequence number, all-zero
bitmap. -/
def ReplayDetector.init : ReplayDetector :=
  { expected_seq_nr := 0, bitmap := fun _ => 0 }

/-- Bitmap word index of a counter: `(seq / BITS_PER_ENTRY) mod BITMAP_SIZE`. -/
def binOf (seq : Nat) : Fin BITMAP_SIZE :=
  ⟨seq / BITS_PER_ENTRY % BITMAP_SIZE, Nat.mod_lt _ (by decide)⟩

/-- Bit position of a counter inside its bitmap word. -/
def bitOf (seq : Nat) : Nat := seq % BITS_PER_ENTRY

/-- Clear `k` consecutive bitmap words starting at absolute word index
`start` (indices taken `mod BITMAP_SIZE`). -/
def clearWords (bm : Fin BITMAP_SIZE → Nat) (start : Nat) : Nat → (Fin BITMAP_SIZE → Nat)
  | 0 => bm
  | k + 1 =>
    Function.update (clearWords bm start k)
      ⟨(start + k) % BITMAP_SIZE, Nat.mod_lt _ (by decide)⟩ 0

/-- Window advance step of the detector: when `n` is at or above the
expected sequence number, the words strictly after the word of the highest
accepted counter up to and including `n`'s word are zeroed (at most the
whole bitmap) and `expected_seq_nr` becomes `n + 1`; otherwise nothing
changes. -/
def advanceWindow (s : ReplayDetector) (n : Nat) : ReplayDetector :=
  if s.expected_seq_nr ≤ n then
    { expected_seq_nr := n + 1,
      bitmap :=
        clearWords s.bitmap ((s.expected_seq_nr - 1) / BITS_PER_ENTRY + 1)
          (min (n / BITS_PER_ENTRY - (s.expected_seq_nr - 1) / BITS_PER_ENTRY) BITMAP_SIZE) }
  else s

/-- Record counter `n` in the bitmap: OR its bit into its bitmap word. -/
def setBit (s : ReplayDetector) (n : Nat) : ReplayDetector :=
  { s with bitmap :=
      Function.update s.bitmap (binOf n) (s.bitmap (binOf n) ||| 2 ^ bitOf n) }

/-- Modelled from the spec: the body of `ReplayDetector::CheckReplay` is not
under `src/` (only its declaration is).  §4.1 of the spec: "`CheckReplay(n)`
returns false if n is zero, if n+window < expected, or if the bit is already
set; otherwise it advances the window (clearing skipped words) and sets the
bit."  Returns the verdict together with the updated state. -/
def checkReplay (s : ReplayDetector) (n : Nat) : Bool × ReplayDetector :=
  if n = 0 then (false, s)
  else if n + WINDOW_SIZE < s.expected_seq_nr then (false, s)
  else
    let s1 := advanceWindow s n
    if (s1.bitmap (binOf n)).testBit (bitOf n) then (false, s1)
    else (true, setBit s1 n)

/-- Run the replay detector over a list of incoming counters, keeping only
the final state. -/
def runReplay (s : ReplayDetector) (ms : List Nat) : ReplayDetector :=
  ms.foldl (fun t m => (checkReplay t m).2) s

/-- A counter `n` is dead for state `s` when `checkReplay` can never again
accept it: it is zero, below the window, or already marked in the bitmap. -/
def Dead (s : ReplayDetector) (n : Nat) : Prop :=
  n = 0 ∨ n + WINDOW_SIZE < s.expected_seq_nr ∨
    (n < s.expected_seq_nr ∧ (s.bitmap (binOf n)).testBit (bitOf n) = true)

theorem clearWords_apply (bm : Fin BITMAP_SIZE → Nat) (start k : Nat) (i : Fin BITMAP_SIZE)
    (h : ∀ j, j < k → (start + j) % BITMAP_SIZE ≠ i.val) :
    clearWords bm start k i = bm i := by
  induction k with
  | zero => rfl
  | succ k ih =>
    simp only [clearWords, Function.update_apply]
    rw [if_neg, ih]
    · exact fun j hj => h j (Nat.lt_succ_of_lt hj)
    · intro he
      exact h k (Nat.lt_succ_self k) (by rw [he])

theorem dead_advanceWindow (s : ReplayDetector) (n m : Nat) (h : Dead s n) :
    Dead (advanceWindow s m) n := by
  unfold advanceWindow
  split
  case isTrue hem =>
    rcases h with h0 | hw | ⟨hlt, hbit⟩
    · exact Or.inl h0
    · refine Or.inr (Or.inl ?_)
      simp only [WINDOW_SIZE, BITS_PER_ENTRY] at hw ⊢
      omega
    · by_cases hc : ∃ j, j < min (m / BITS_PER_ENTRY - (s.expected_seq_nr - 1) / BITS_PER_ENTRY) BITMAP_SIZE ∧
        ((s.expected_seq_nr - 1) / BITS_PER_ENTRY + 1 + j) % BITMAP_SIZE = (binOf n).val
      · obtain ⟨j, hj, heq⟩ := hc
        refine Or.inr (Or.inl ?_)
        have hv : (binOf n).val = n / 32 % 64 := rfl
        simp only [WINDOW_SIZE, BITS_PER_ENTRY, BITMAP_SIZE, hv] at hj heq ⊢
        omega
      · refine Or.inr (Or.inr ⟨?_, ?_⟩)
        · exact Nat.lt_of_lt_of_le hlt (Nat.le_succ_of_le hem)
        · show (clearWords s.bitmap _ _ (binOf n)).testBit (bitOf n) = true
          rw [clearWords_apply]
          · exact hbit
          · intro j hj heq
            exact hc ⟨j, hj, heq⟩
  case isFalse => exact h

theorem dead_setBit (s : ReplayDetector) (n m : Nat) (h : Dead s n) : Dead (setBit s m) n := by
  rcases h with h0 | hw | ⟨hlt, hbit⟩
  · exact Or.inl h0
  · exact Or.inr (Or.inl hw)
  · refine Or.inr (Or.inr ⟨hlt, ?_⟩)
    show (Function.update s.bitmap (binOf m) _ (binOf n)).testBit (bitOf n) = true
    rw [Function.update_apply]
    split
    case isTrue he =>
      rw [he] at hbit
      simp [Nat.testBit_or, hbit]
    case isFalse => exact hbit

theorem dead_checkReplay (s : ReplayDetector) (n m : Nat) (h : Dead s n) :
    Dead (checkReplay s m).2 n := by
  unfold checkReplay
  split
  · exact h
  split
  · exact h
  dsimp only
  split
  · exact dead_advanceWindow s n m h
  · exact dead_setBit _ n m (dead_advanceWindow s n m h)

theorem dead_rejected (s : ReplayDetector) (n : Nat) (h : Dead s n) :
    (checkReplay s n).1 = false := by
  unfold checkReplay
  split
  · rfl
  split
  · rfl
  case isFalse h0 hw =>
    dsimp only
    rcases h with h1 | h2 | ⟨hlt, hbit⟩
    · exact absurd h1 h0
    · exact absurd h2 hw
    · have ha : advanceWindow s n = s := by
        unfold advanceWindow
        rw [if_neg (Nat.not_le.mpr hlt)]
      rw [ha, if_pos hbit]

theorem lt_expected_advanceWindow (s : ReplayDetector) (n : Nat) :
    n < (advanceWindow s n).expected_seq_nr := by
  unfold advanceWindow
  split
  · exact Nat.lt_succ_self n
  case isFalse h => exact Nat.lt_of_not_le h

theorem dead_setBit_self (s : ReplayDetector) (n : Nat) (hlt : n < s.expected_seq_nr) :
    Dead (setBit s n) n := by
  refine Or.inr (Or.inr ⟨hlt, ?_⟩)
  dsimp only [setBit]
  rw [Function.update_same]
  simp [Nat.testBit_or]

theorem accepted_dead (s : ReplayDetector) (n : Nat) (h : (checkReplay s n).1 = true) :
    Dead (checkReplay s n).2 n := by
  unfold checkReplay at h ⊢
  by_cases h0 : n = 0
  · rw [if_pos h0] at h
    simp at h
  rw [if_neg h0] at h ⊢
  by_cases hw : n + WINDOW_SIZE < s.expected_seq_nr
  · rw [if_pos hw] at h
    simp at h
  rw [if_neg hw] at h ⊢
  dsimp only at h ⊢
  by_cases hbit : ((advanceWindow s n).bitmap (binOf n)).testBit (bitOf n) = true
  · rw [if_pos hbit] at h
    simp at h
  rw [if_neg hbit]
  exact dead_setBit_self _ n (lt_expected_advanceWindow s n)

theorem dead_runReplay (s : ReplayDetector) (n : Nat) (ms : List Nat) (h : Dead s n) :
    Dead (runReplay s ms) n := by
  induction ms generalizing s with
  | nil => exact h
  | cons m ms ih => exact ih _ (dead_checkReplay s n m h)

/-- C1, counterexample: the replay window accepts out-of-order counters, so
the claim "after accepting counter n, every counter ≤ n is rejected" is
false as stated.  From the initial state, counter 100 is accepted and the
strictly smaller counter 99 is then also accepted. -/
theorem checkReplay_le_counterexample :
    99 ≤ 100 ∧ (checkReplay ReplayDetector.init 100).1 = true ∧
      (checkReplay (checkReplay ReplayDetector.init 100).2 99).1 = true := by
  refine ⟨by decide, by decide, by decide⟩

/-- C1 (amended): once a counter `n` has been accepted by `CheckReplay`, any
further packet with counter equal to `n` is rejected, no matter which other
counters the detector processes in between — at most one acceptance per
counter value. -/
theorem checkReplay_at_most_once (s : ReplayDetector) (n : Nat) (ms : List Nat)
    (h : (checkReplay s n).1 = true) :
    (checkReplay (runReplay (checkReplay s n).2 ms) n).1 = false :=
  dead_rejected _ _ (dead_runReplay _ _ _ (accepted_dead s n h))

/-- C1, witness: counter 5 is accepted from the initial state, and after
further traffic (counters 7 and 3) a replay of 5 is rejected. -/
theorem checkReplay_at_most_once_witness :
    (checkReplay ReplayDetector.init 5).1 = true ∧
      (checkReplay (runReplay (checkReplay ReplayDetector.init 5).2 [7, 3]) 5).1 = false :=
  ⟨by decide, checkReplay_at_most_once ReplayDetector.init 5 [7, 3] (by decide)⟩

/-- C2, counterexample: the header defines `BITMAP_SIZE = WINDOW_SIZE /
BITS_PER_ENTRY + 1 = 64`, not `(2048 − 32) / 32 = 63` as the claim states. -/
theorem bitmap_size_counterexample : (2048 - 32) / 32 = 63 ∧ BITMAP_SIZE ≠ 63 := by
  decide

/-- C2 (amended): the ReplayDetector state is an `expected_seq_nr` (highest
accepted counter + 1) plus a bitmap of `WINDOW_SIZE / BITS_PER_ENTRY + 1 =
64` u32 words, a sequence number's word is selected by `(seq / 32) mod 64`,
and after an acceptance that advances the window `expected_seq_nr` is the
accepted counter + 1. -/
theorem replayDetector_state_shape :
    BITMAP_SIZE = WINDOW_SIZE / BITS_PER_ENTRY + 1 ∧ BITMAP_SIZE = 64 ∧
      BITMAP_MASK = 63 ∧ (∀ seq : Nat, (binOf seq).val = seq / 32 % 64) ∧
      (∀ s : ReplayDetector, ∀ n : Nat, s.expected_seq_nr ≤ n →
        (advanceWindow s n).expected_seq_nr = n + 1) := by
  refine ⟨rfl, rfl, rfl, fun seq => rfl, fun s n h => ?_⟩
  unfold advanceWindow
  rw [if_pos h]

/-- C2, witness: the state-shape facts evaluated at sequence number 70 and
at an advance of the fresh detector to counter 9. -/
theorem replayDetector_state_shape_witness :
    (binOf 70).val = 70 / 32 % 64 ∧ ReplayDetector.init.expected_seq_nr ≤ 9 ∧
      (advanceWindow ReplayDetector.init 9).expected_seq_nr = 9 + 1 :=
  ⟨replayDetector_state_shape.2.2.2.1 70, by decide,
    replayDetector_state_shape.2.2.2.2 ReplayDetector.init 9 (by decide)⟩

/-! ## Message-count limits and the outbound send gate (C3) -/

/-- Modelled from the spec: the outbound encryption path that consumes
`WgKeypair::send_ctr` is not under `src/`.  The spec: "packets are rejected
when the counter reaches the reject threshold; counter at
REJECT_AFTER_MESSAGES−1 is accepted; at REJECT_AFTER_MESSAGES it is
rejected", i.e. a packet is allowed exactly when its send counter is below
`REJECT_AFTER_MESSAGES`. -/
def sendCounterAllowed (send_ctr : Nat) : Bool :=
  send_ctr < REJECT_AFTER_MESSAGES

/-- C3, counterexample: `REJECT_AFTER_MESSAGES = UINT64_MAX - 2048 =
2^64 − 2049`, not `2^64 − 2048` as the claim states. -/
theorem reject_after_messages_counterexample :
    REJECT_AFTER_MESSAGES = 2 ^ 64 - 2049 ∧ REJECT_AFTER_MESSAGES ≠ 2 ^ 64 - 2048 := by
  constructor
  · rfl
  · decide

/-- C3 (amended): `REKEY_AFTER_MESSAGES = 2^64 − 2^16` and
`REJECT_AFTER_MESSAGES = UINT64_MAX − 2048 = 2^64 − 2049`; an outbound
packet whose send counter equals `REJECT_AFTER_MESSAGES − 1` is accepted
while one whose send counter reaches `2^64 − 2048` (indeed any counter at or
above `REJECT_AFTER_MESSAGES`) is rejected. -/
theorem message_limits :
    REKEY_AFTER_MESSAGES = 2 ^ 64 - 2 ^ 16 ∧ REJECT_AFTER_MESSAGES = 2 ^ 64 - 2049 ∧
      sendCounterAllowed (REJECT_AFTER_MESSAGES - 1) = true ∧
      sendCounterAllowed (2 ^ 64 - 2048) = false ∧
      (∀ c : Nat, REJECT_AFTER_MESSAGES ≤ c → sendCounterAllowed c = false) := by
  refine ⟨rfl, rfl, by decide, by decide, fun c hc => ?_⟩
  simp only [sendCounterAllowed, decide_eq_false_iff_not, Nat.not_lt]
  exact hc

/-- C3, witness: the universally quantified rejection fact evaluated at the
concrete counter `2^64 − 1`. -/
theorem message_limits_witness :
    REJECT_AFTER_MESSAGES ≤ 2 ^ 64 - 1 ∧ sendCounterAllowed (2 ^ 64 - 1) = false :=
  ⟨by decide, message_limits.2.2.2.2 (2 ^ 64 - 1) (by decide)⟩

/-! ## Rate limiter (`class WgRateLimit`)

Constants from the `enum` inside `class WgRateLimit`. -/

/-- `BINSIZE = 4096` -/
def BINSIZE : Nat := 4096

/-- `PACKETS_PER_SEC = 25` -/
def PACKETS_PER_SEC : Nat := 25

/-- `PACKET_ACCUM = 100` -/
def PACKET_ACCUM : Nat := 100

/-- `TOTAL_PACKETS_PER_SEC = 25000` -/
def TOTAL_PACKETS_PER_SEC : Nat := 25000

/-- A bin-entry location: which of the two bins (`bins_[0]` or `bins_[1]`)
and the index within it.  Embeds the `uint8 *value_ptr` of
`RateLimitResult`, which in the code always points into one of the two
bins. -/
structure BinRef where
  whichBin : Bool
  index : Fin BINSIZE

/-- `struct RateLimitResult { uint8 *value_ptr; uint8 new_value; uint8 is_ok; }` -/
structure RateLimitResult where
  value_ptr : BinRef
  new_value : Nat
  is_ok : Nat

/-- `bool is_rate_limited() { return !is_ok; }` — for a `uint8` field,
`!is_ok` is true exactly when `is_ok` is zero. -/
def RateLimitResult.is_rate_limited (rr : RateLimitResult) : Bool := rr.is_ok == 0

/-- `bool is_first_ip() { return new_value == 1; }` -/
def RateLimitResult.is_first_ip (rr : RateLimitResult) : Bool := rr.new_value == 1

/-- Mutable state of `class WgRateLimit`: two bins of `BINSIZE` `uint8`
entries (`uint8 bins_[2][BINSIZE]`, reached through `bin1_`/`bin2_`), and
the `uint32` counters `packets_per_sec_` and `used_rate_limit_`.  The
SipHash keys and rotation randomness are abstracted: hashing is out of
scope, so the operations below take bin indices directly. -/
structure WgRateLimit where
  bin1 : Fin BINSIZE → Nat
  bin2 : Fin BINSIZE → Nat
  packets_per_sec : Nat
  used_rate_limit : Nat

/-- Freshly constructed rate limiter: empty bins, `packets_per_sec_ =
PACKETS_PER_SEC`, `used_rate_limit_ = 0`. -/
def WgRateLimit.init : WgRateLimit :=
  { bin1 := fun _ => 0, bin2 := fun _ => 0,
    packets_per_sec := PACKETS_PER_SEC, used_rate_limit := 0 }

/-- Dereference a bin pointer. -/
def WgRateLimit.read (s : WgRateLimit) (r : BinRef) : Nat :=
  if r.whichBin then s.bin2 r.index else s.bin1 r.index

/-- Store through a bin pointer. -/
def WgRateLimit.write (s : WgRateLimit) (r : BinRef) (v : Nat) : WgRateLimit :=
  if r.whichBin then { s with bin2 := Function.update s.bin2 r.index v }
  else { s with bin1 := Function.update s.bin1 r.index v }

/-- Modelled from the spec: the body of `WgRateLimit::CheckRateLimit` is not
under `src/` (only its declaration is).  §4.2: the source is rate-limited
iff `min(a, b) ≥ PACKET_ACCUM` where `a`, `b` are the two bin values for
the ip's two hashes; the result carries a pointer to the losing
(smaller-valued) bin entry and, as the proposed new value, that entry's
value + 1 in `uint8` arithmetic. -/
def checkRateLimit (s : WgRateLimit) (h1 h2 : Fin BINSIZE) : RateLimitResult :=
  let a := s.bin1 h1
  let b := s.bin2 h2
  { value_ptr := if a ≤ b then ⟨false, h1⟩ else ⟨true, h2⟩,
    new_value := (min a b + 1) % 256,
    is_ok := if PACKET_ACCUM ≤ min a b then 0 else 1 }

/-- `void CommitResult(const RateLimitResult &rr)`, inline in the header:
`*rr.value_ptr = rr.new_value; if (used_rate_limit_++ ==
TOTAL_PACKETS_PER_SEC) packets_per_sec_ = (packets_per_sec_ + 1) >> 1;`
(post-increment compares the old value; all counter arithmetic is
`uint32`). -/
def commitResult (s : WgRateLimit) (rr : RateLimitResult) : WgRateLimit :=
  let s1 := s.write rr.value_ptr rr.new_value
  { s1 with
    used_rate_limit := (s.used_rate_limit + 1) % 2 ^ 32,
    packets_per_sec :=
      if s.used_rate_limit = TOTAL_PACKETS_PER_SEC then (s.packets_per_sec + 1) % 2 ^ 32 / 2
      else s.packets_per_sec }

/-- `bool is_used() { return used_rate_limit_ != 0 || packets_per_sec_ !=
PACKETS_PER_SEC; }`, inline in the header. -/
def WgRateLimit.is_used (s : WgRateLimit) : Bool :=
  s.used_rate_limit != 0 || s.packets_per_sec != PACKETS_PER_SEC

/-- One committed packet: check an ip (its two hash indices are immaterial
for the global counters) and commit the result. -/
def commitTick (s : WgRateLimit) : WgRateLimit :=
  commitResult s (checkRateLimit s ⟨0, by decide⟩ ⟨0, by decide⟩)

theorem commitResult_used (s : WgRateLimit) (rr : RateLimitResult) :
    (commitResult s rr).used_rate_limit = (s.used_rate_limit + 1) % 2 ^ 32 := rfl

theorem commitResult_pps (s : WgRateLimit) (rr : RateLimitResult) :
    (commitResult s rr).packets_per_sec =
      if s.used_rate_limit = TOTAL_PACKETS_PER_SEC then (s.packets_per_sec + 1) % 2 ^ 32 / 2
      else s.packets_per_sec := rfl

theorem commitTick_counters (k : Nat) (hk : k ≤ TOTAL_PACKETS_PER_SEC) :
    (commitTick^[k] WgRateLimit.init).used_rate_limit = k ∧
      (commitTick^[k] WgRateLimit.init).packets_per_sec = PACKETS_PER_SEC := by
  induction k with
  | zero => exact ⟨rfl, rfl⟩
  | succ k ih =>
    obtain ⟨hu, hp⟩ := ih (Nat.le_of_succ_le hk)
    simp only [TOTAL_PACKETS_PER_SEC] at hk
    rw [Function.iterate_succ_apply']
    refine ⟨?_, ?_⟩
    · rw [commitTick, commitResult_used, hu]
      omega
    · rw [commitTick, commitResult_pps, hu,
        if_neg (by simp only [TOTAL_PACKETS_PER_SEC]; omega), hp]

/-- C4, counterexample: after 25001 committed packets the token counter is
`(25 + 1) >> 1 = 13`, not `⌊25 / 2⌋ = 12` — the halving rounds up, not
toward floor. -/
theorem rateLimit_halving_counterexample :
    (commitTick^[25001] WgRateLimit.init).packets_per_sec = 13 ∧ (13 : Nat) ≠ 25 / 2 := by
  refine ⟨?_, by decide⟩
  obtain ⟨hu, hp⟩ := commitTick_counters 25000 (by decide)
  have h1 : (25001 : Nat) = 25000 + 1 := rfl
  rw [h1, Function.iterate_succ_apply', commitTick, commitResult_pps, hu, hp]
  decide

/-- C4 (amended): the rate limiter uses two bins of `BINSIZE = 4096` byte
entries; a source is rate-limited exactly when the min of its two bin
values has reached `PACKET_ACCUM = 100`; the global token counter
`packets_per_sec_` starts at 25, stays at 25 through the first 25000
committed packets (each `CommitResult` call counts one packet), and on the
25001st commit — once more than 25000 packets have been seen in the second
— it is halved rounding up: `25 → (25 + 1) >> 1 = 13`. -/
theorem rateLimit_behavior :
    BINSIZE = 4096 ∧ PACKET_ACCUM = 100 ∧
      (∀ (s : WgRateLimit) (h1 h2 : Fin BINSIZE),
        (checkRateLimit s h1 h2).is_rate_limited = true ↔
          PACKET_ACCUM ≤ min (s.bin1 h1) (s.bin2 h2)) ∧
      WgRateLimit.init.packets_per_sec = 25 ∧
      (∀ k : Nat, k ≤ TOTAL_PACKETS_PER_SEC →
        (commitTick^[k] WgRateLimit.init).packets_per_sec = 25) ∧
      (commitTick^[TOTAL_PACKETS_PER_SEC + 1] WgRateLimit.init).packets_per_sec = (25 + 1) / 2 := by
  refine ⟨rfl, rfl, ?_, rfl, ?_, ?_⟩
  · intro s h1 h2
    simp only [checkRateLimit, RateLimitResult.is_rate_limited]
    split
    case isTrue h => simpa using h
    case isFalse h => simpa using h
  · intro k hk
    exact (commitTick_counters k hk).2
  · obtain ⟨hu, hp⟩ := commitTick_counters TOTAL_PACKETS_PER_SEC (Nat.le_refl _)
    rw [Function.iterate_succ_apply', commitTick, commitResult_pps, hu, hp]
    decide

/-- C4, witness: the token counter is unchanged after exactly 25000
committed packets. -/
theorem rateLimit_behavior_witness :
    (25000 : Nat) ≤ TOTAL_PACKETS_PER_SEC ∧
      (commitTick^[25000] WgRateLimit.init).packets_per_sec = 25 :=
  ⟨by decide, rateLimit_behavior.2.2.2.2.1 25000 (by decide)⟩

/-- C5: `CheckRateLimit` returns a `RateLimitResult` carrying a bin-entry
pointer and a proposed new value; `CommitResult` writes exactly that
proposed value through the pointer; `is_rate_limited()` is true exactly
when `is_ok` is zero; `is_first_ip()` is true exactly when the proposed new
value equals 1. -/
theorem rateLimitResult_semantics :
    (∀ (s : WgRateLimit) (rr : RateLimitResult),
      (commitResult s rr).read rr.value_ptr = rr.new_value) ∧
      (∀ rr : RateLimitResult, rr.is_rate_limited = true ↔ rr.is_ok = 0) ∧
      (∀ rr : RateLimitResult, rr.is_first_ip = true ↔ rr.new_value = 1) := by
  refine ⟨?_, ?_, ?_⟩
  · intro s rr
    rcases rr with ⟨⟨wb, idx⟩, nv, ok⟩
    cases wb <;>
      simp [commitResult, WgRateLimit.read, WgRateLimit.write, Function.update_same]
  · intro rr
    simp [RateLimitResult.is_rate_limited]
  · intro rr
    simp [RateLimitResult.is_first_ip]

/-- C9: `is_used()` is true iff at least one result has been committed since
the counter was last reset (`used_rate_limit_ ≠ 0`) or `packets_per_sec_`
differs from its initial value `PACKETS_PER_SEC = 25`; in particular an
idle, never-decayed rate limiter reports `is_used() = false`. -/
theorem is_used_semantics :
    PACKETS_PER_SEC = 25 ∧
      (∀ s : WgRateLimit, s.is_used = true ↔
        (s.used_rate_limit ≠ 0 ∨ s.packets_per_sec ≠ PACKETS_PER_SEC)) ∧
      WgRateLimit.init.is_used = false := by
  refine ⟨rfl, fun s => ?_, rfl⟩
  simp [WgRateLimit.is_used]

/-! ## Wire message layouts (C6)

Field sizes from `enum MessageFieldSizes`; the structs are packed
little-endian records with no padding, checked in the header by
`STATIC_ASSERT`s on `sizeof`. -/

/-- `WG_COOKIE_LEN = 16` -/
def WG_COOKIE_LEN : Nat := 16

/-- `WG_COOKIE_NONCE_LEN = 24` -/
def WG_COOKIE_NONCE_LEN : Nat := 24

/-- `WG_PUBLIC_KEY_LEN = 32` -/
def WG_PUBLIC_KEY_LEN : Nat := 32

/-- `WG_MAC_LEN = 16` -/
def WG_MAC_LEN : Nat := 16

/-- `WG_TIMESTAMP_LEN = 12` -/
def WG_TIMESTAMP_LEN : Nat := 12

/-- `struct MessageMacs { uint8 mac1[WG_COOKIE_LEN]; uint8 mac2[WG_COOKIE_LEN]; }` -/
def sizeof_MessageMacs : Nat := WG_COOKIE_LEN + WG_COOKIE_LEN

/-- `struct MessageHandshakeInitiation`: `uint32 type`, `uint32
sender_key_id`, `uint8 ephemeral[WG_PUBLIC_KEY_LEN]`, `uint8
static_enc[WG_PUBLIC_KEY_LEN + WG_MAC_LEN]`, `uint8
timestamp_enc[WG_TIMESTAMP_LEN + WG_MAC_LEN]`, `MessageMacs mac`. -/
def sizeof_MessageHandshakeInitiation : Nat :=
  4 + 4 + WG_PUBLIC_KEY_LEN + (WG_PUBLIC_KEY_LEN + WG_MAC_LEN) +
    (WG_TIMESTAMP_LEN + WG_MAC_LEN) + sizeof_MessageMacs

/-- `struct MessageHandshakeResponse`: `uint32 type`, `uint32
sender_key_id`, `uint32 receiver_key_id`, `uint8
ephemeral[WG_PUBLIC_KEY_LEN]`, `uint8 empty_enc[WG_MAC_LEN]`,
`MessageMacs mac`. -/
def sizeof_MessageHandshakeResponse : Nat :=
  4 + 4 + 4 + WG_PUBLIC_KEY_LEN + WG_MAC_LEN + sizeof_MessageMacs

/-- `struct MessageHandshakeCookie`: `uint32 type`, `uint32
receiver_key_id`, `uint8 nonce[WG_COOKIE_NONCE_LEN]`, `uint8
cookie_enc[WG_COOKIE_LEN + WG_MAC_LEN]`. -/
def sizeof_MessageHandshakeCookie : Nat :=
  4 + 4 + WG_COOKIE_NONCE_LEN + (WG_COOKIE_LEN + WG_MAC_LEN)

/-- `struct MessageData`: `uint32 type`, `uint32 receiver_id`,
`uint64 counter`. -/
def sizeof_MessageData : Nat := 4 + 4 + 8

/-- C6: the wire structures have exactly the declared fixed sizes — 148
bytes for a handshake initiation (type, sender_key_id, 32-byte ephemeral,
32+16-byte encrypted static, 12+16-byte encrypted timestamp, two 16-byte
MACs), 92 for a handshake response, 64 for a cookie reply, 16 for a data
message header — matching the header's `STATIC_ASSERT`s. -/
theorem message_sizes :
    sizeof_MessageHandshakeInitiation = 148 ∧ sizeof_MessageHandshakeResponse = 92 ∧
      sizeof_MessageHandshakeCookie = 64 ∧ sizeof_MessageData = 16 ∧
      sizeof_MessageMacs = 32 := by
  decide

/-! ## Per-peer packet queue (C7) -/

/-- Modelled from the spec: the body of `WgPeer::AddPacketToPeerQueue` is
not under `src/` (only its declaration and the queue fields
`num_queued_packets_` / `first_queued_packet_` are).  §7 of the spec:
packets are queued "up to 128 per peer; oldest dropped on overflow".
Packets are abstracted as naturals; the queue is a FIFO list, head
oldest. -/
def addPacketToPeerQueue (q : List Nat) (p : Nat) : List Nat :=
  if MAX_QUEUED_PACKETS_PER_PEER ≤ q.length then q.tail ++ [p]
  else q ++ [p]

/-- C7: `AddPacketToPeerQueue` keeps the queue at no more than
`MAX_QUEUED_PACKETS_PER_PEER = 128` packets, and when a packet is queued
while the queue is full the oldest queued packet is dropped. -/
theorem peer_queue_bounded (q : List Nat) (p : Nat)
    (h : q.length ≤ MAX_QUEUED_PACKETS_PER_PEER) :
    MAX_QUEUED_PACKETS_PER_PEER = 128 ∧
      (addPacketToPeerQueue q p).length ≤ MAX_QUEUED_PACKETS_PER_PEER ∧
      (q.length = MAX_QUEUED_PACKETS_PER_PEER →
        addPacketToPeerQueue q p = q.tail ++ [p]) := by
  refine ⟨rfl, ?_, ?_⟩
  · unfold addPacketToPeerQueue
    simp only [MAX_QUEUED_PACKETS_PER_PEER] at h ⊢
    split
    case isTrue hf =>
      simp only [List.length_append, List.length_tail, List.length_cons, List.length_nil]
      omega
    case isFalse hf =>
      simp only [List.length_append, List.length_cons, List.length_nil]
      omega
  · intro hfull
    unfold addPacketToPeerQueue
    rw [if_pos (Nat.le_of_eq hfull.symm)]

/-- C7, witness: queueing onto a full queue of 128 packets keeps the length
at 128 and drops the oldest packet. -/
theorem peer_queue_bounded_witness :
    (List.replicate 128 0).length ≤ MAX_QUEUED_PACKETS_PER_PEER ∧
      (addPacketToPeerQueue (List.replicate 128 0) 7).length ≤ MAX_QUEUED_PACKETS_PER_PEER ∧
      addPacketToPeerQueue (List.replicate 128 0) 7 = (List.replicate 128 0).tail ++ [7] :=
  ⟨by simp [MAX_QUEUED_PACKETS_PER_PEER],
    (peer_queue_bounded (List.replicate 128 0) 7 (by simp [MAX_QUEUED_PACKETS_PER_PEER])).2.1,
    (peer_queue_bounded (List.replicate 128 0) 7
        (by simp [MAX_QUEUED_PACKETS_PER_PEER])).2.2
      (by simp [MAX_QUEUED_PACKETS_PER_PEER])⟩

/-! ## Handshake timestamp monotonicity (C8) -/

/-- Modelled from the spec: the body of
`WgPeer::ParseMessageHandshakeInitiation` is not under `src/` (only its
declaration and the field `uint8 last_timestamp_[WG_TIMESTAMP_LEN]`, "The
most recent seen timestamp, only accept higher timestamps", are).
Responder rule (d) of spec §4.3: an initiation is accepted only if "the
embedded TAI64N timestamp strictly exceeds the peer's last accepted
timestamp", and on acceptance the stored timestamp becomes the received
one.  TAI64N timestamps are big-endian, so the byte-wise comparison order
coincides with the numeric order; they are embedded as naturals.  Returns
the verdict and the peer's updated `last_timestamp_`. -/
def acceptInitiation (last t : Nat) : Bool × Nat :=
  if last < t then (true, t) else (false, last)

/-- Timestamps of the accepted initiations, in order, when a stream of
initiations with timestamps `ts` arrives at a peer whose stored timestamp
starts at `last`. -/
def acceptedTimestamps (last : Nat) : List Nat → List Nat
  | [] => []
  | t :: ts =>
    if last < t then t :: acceptedTimestamps t ts else acceptedTimestamps last ts

theorem acceptedTimestamps_cons (last t : Nat) (ts : List Nat) :
    acceptedTimestamps last (t :: ts) =
      if (acceptInitiation last t).1 = true then
        t :: acceptedTimestamps (acceptInitiation last t).2 ts
      else acceptedTimestamps (acceptInitiation last t).2 ts := by
  by_cases h : last < t <;> simp [acceptedTimestamps, acceptInitiation, h]

theorem acceptedTimestamps_gt (last : Nat) (ts : List Nat) :
    ∀ u ∈ acceptedTimestamps last ts, last < u := by
  induction ts generalizing last with
  | nil =>
    intro u hu
    simp [acceptedTimestamps] at hu
  | cons t ts ih =>
    intro u hu
    simp only [acceptedTimestamps] at hu
    split at hu
    case isTrue h =>
      rcases List.mem_cons.mp hu with h1 | h1
      · exact h1 ▸ h
      · exact Nat.lt_trans h (ih t u h1)
    case isFalse h => exact ih last u hu

theorem acceptedTimestamps_chain (last : Nat) (ts : List Nat) :
    (acceptedTimestamps last ts).Chain' (· < ·) := by
  induction ts generalizing last with
  | nil => simp [acceptedTimestamps]
  | cons t ts ih =>
    simp only [acceptedTimestamps]
    split
    case isTrue h =>
      rw [List.chain'_cons']
      exact ⟨fun y hy => acceptedTimestamps_gt t ts y (List.mem_of_mem_head? hy), ih t⟩
    case isFalse h => exact ih last

/-- C8: an initiation is accepted exactly when its timestamp strictly
exceeds the stored `last_timestamp_`; acceptance stores the new timestamp,
which strictly exceeds the previous one; hence over any stream of incoming
initiations the accepted timestamps are strictly increasing between
successive acceptances. -/
theorem initiation_timestamp_monotone :
    (∀ last t : Nat, (acceptInitiation last t).1 = true ↔ last < t) ∧
      (∀ last t : Nat, (acceptInitiation last t).1 = true →
        (acceptInitiation last t).2 = t ∧ last < (acceptInitiation last t).2) ∧
      (∀ (last : Nat) (ts : List Nat), (acceptedTimestamps last ts).Chain' (· < ·)) := by
  refine ⟨?_, ?_, acceptedTimestamps_chain⟩
  · intro last t
    by_cases hlt : last < t <;> simp [acceptInitiation, hlt]
  · intro last t h
    by_cases hlt : last < t
    · have he : acceptInitiation last t = (true, t) := by
        simp [acceptInitiation, hlt]
      rw [he]
      exact ⟨rfl, hlt⟩
    · simp [acceptInitiation, if_neg hlt] at h

/-- C8, witness: an initiation with timestamp 11 against a stored timestamp
of 10 is accepted and advances the stored timestamp to 11. -/
theorem initiation_timestamp_monotone_witness :
    (acceptInitiation 10 11).1 = true ∧ (acceptInitiation 10 11).2 = 11 ∧
      10 < (acceptInitiation 10 11).2 :=
  ⟨by decide, (initiation_timestamp_monotone.2.1 10 11 (by decide)).1,
    (initiation_timestamp_monotone.2.1 10 11 (by decide)).2⟩

/-! ## WgAddrEntry construction (C10) -/

/-- State of `struct WgAddrEntry`: entry id, `time_of_last_insertion`,
`ref_count`, `next_slot`, and the three keypair slots `WgKeypair *keys[3]`
(pointers embedded as `Option` values, `none` = `NULL`). -/
structure WgAddrEntry where
  addr_entry_id : Nat
  time_of_last_insertion : Nat
  ref_count : Nat
  next_slot : Nat
  keys : Fin 3 → Option Nat

/-- `WgAddrEntry(uint64 addr_entry_id)`, inline in the header: initializes
`ref_count` and `next_slot` to 0, the three key slots to `NULL`, and
`time_of_last_insertion` to the constant `0x123456789123456`. -/
def makeWgAddrEntry (addr_entry_id : Nat) : WgAddrEntry :=
  { addr_entry_id := addr_entry_id,
    time_of_last_insertion := 0x123456789123456,
    ref_count := 0, next_slot := 0,
    keys := fun _ => none }

/-- C10: every newly constructed `WgAddrEntry` has `ref_count = 0`,
`next_slot = 0`, all three keypair slots `NULL`, and
`time_of_last_insertion = 0x123456789123456`, which is not 0 — the
60-second minimum-interval rule for slot insertion is measured against
that sentinel value on the first insertion. -/
theorem addrEntry_ctor :
    ∀ a : Nat,
      (makeWgAddrEntry a).ref_count = 0 ∧ (makeWgAddrEntry a).next_slot = 0 ∧
        (∀ i : Fin 3, (makeWgAddrEntry a).keys i = none) ∧
        (makeWgAddrEntry a).time_of_last_insertion = 0x123456789123456 ∧
        (makeWgAddrEntry a).time_of_last_insertion ≠ 0 := by
  intro a
  refine ⟨rfl, rfl, fun i => rfl, rfl, ?_⟩
  show (0x123456789123456 : Nat) ≠ 0
  decide

end TunSafe
